import Mathlib

/-
Verification of the categorical time-series consolidation algorithm
(`ModalFromGroupings`): per-point weather-code series are reduced to a single
representative code via canonicalization to day-form codes, diurnal
re-weighting, a wet/dry majority threshold with a tunable bias,
cloud-equivalent folding of wet codes into dry buckets, hierarchical group
consolidation with positional tie-breaks, and a numeric-tie-break mode
selector fallback.

The algorithm's own module is not part of the sources available here (only
its unit tests are), so the development below embeds the algorithm from the
specification; the unit-test file supplies the concrete configuration
(broad categories, wet sub-category groups, intensity groups) and expected
values used in the concrete theorems.

Weights are modelled as natural numbers: the diurnal day-weighting and the
wet bias are integer-valued in every configuration exercised, and the
wet/dry threshold `wet_total >= grand_total / (1 + wet_bias)` is stated over
the rationals in the corresponding theorem and proved equivalent to the
integer comparison used by the embedding.
-/

namespace ModalGroupings

/-- A weather code: an integer key, opaque to the algorithm. -/
abbrev Code := Nat

/-- Modelled from the spec: the process-wide configuration of
`ModalFromGroupings` — the decision-tree lookups `day_form` and
`cloud_equivalent`, the total wet/dry broad-category mapping, the ordered wet
sub-category groups, the optional ordered intensity groups, and the scalar
parameters `wet_bias`, `day_weighting`, `day_start`, `day_end`, `day_length`.
Group names are dropped: only the declaration order and member order of the
groups are ever consulted. -/
structure Config where
  dayForm : Code → Code
  cloudEquivalent : Code → Code
  wetCodes : List Code
  dryCodes : List Code
  wetGroups : List (List Code)
  intensityGroups : Option (List (List Code))
  wetBias : Nat
  dayWeighting : Nat
  dayStart : Nat
  dayEnd : Nat
  dayLength : Nat

/-- Modelled from the spec: the diurnal weight of a timestamp, given as its
hour offset from the series origin.  `hour = offset mod day_length`; the
weight is `day_weighting` inside the half-open window
`[day_start, day_end)` provided `day_start ≠ day_end`, and `1` otherwise. -/
def diurnalWeight (cfg : Config) (t : Nat) : Nat :=
  if cfg.dayStart ≠ cfg.dayEnd ∧
      cfg.dayStart ≤ t % cfg.dayLength ∧ t % cfg.dayLength < cfg.dayEnd then
    cfg.dayWeighting
  else 1

/-- Modelled from the spec: canonicalize every raw code of a point's series
to its day form and attach each timestep's diurnal weight.  This happens
before any tallying, classification or grouping; every later stage consumes
only this weighted canonical series. -/
def weightedCanon (cfg : Config) (series : List (Nat × Code)) : List (Nat × Code) :=
  series.map fun p => (diurnalWeight cfg p.1, cfg.dayForm p.2)

/-- Modelled from the spec: the unfolded weighted tally of one code — the sum
of the diurnal weights of the timesteps whose canonical code equals `c`. -/
def tallyW (wc : List (Nat × Code)) (c : Code) : Nat :=
  ((wc.filter fun p => p.2 == c).map Prod.fst).sum

/-- The distinct canonical codes appearing in a weighted canonical series. -/
def tallyKeys (wc : List (Nat × Code)) : List Code :=
  (wc.map Prod.snd).dedup

/-- Modelled from the spec: `wet_total`, the sum of the unfolded per-code raw
weights over the codes classified wet. -/
def wetTotal (cfg : Config) (wc : List (Nat × Code)) : Nat :=
  (((tallyKeys wc).filter fun c => decide (c ∈ cfg.wetCodes)).map (tallyW wc)).sum

/-- Modelled from the spec: `grand_total`, the sum of the unfolded per-code
raw weights over all codes seen. -/
def grandTotal (wc : List (Nat × Code)) : Nat :=
  ((tallyKeys wc).map (tallyW wc)).sum

/-- Modelled from the spec: the broad-category decision
`wet iff wet_total ≥ grand_total / (1 + wet_bias)`, written in the
denominator-cleared integer form (`1 + wet_bias > 0`). -/
def isWetPoint (cfg : Config) (wc : List (Nat × Code)) : Bool :=
  decide (grandTotal wc ≤ wetTotal cfg wc * (1 + cfg.wetBias))

/-- Modelled from the spec: the tally after cloud-equivalent folding — the
weight of every wet code is additionally credited to its cloud-equivalent
bucket, unconditionally.  There is no fold in the other direction. -/
def foldedW (cfg : Config) (wc : List (Nat × Code)) (c : Code) : Nat :=
  tallyW wc c +
    (((tallyKeys wc).filter fun k =>
        decide (k ∈ cfg.wetCodes) && (cfg.cloudEquivalent k == c)).map (tallyW wc)).sum

/-- The wet-side candidate tally: unfolded weights restricted to the codes
classified wet. -/
def wetPairs (cfg : Config) (wc : List (Nat × Code)) : List (Code × Nat) :=
  ((tallyKeys wc).filter fun c => decide (c ∈ cfg.wetCodes)).map fun c => (c, tallyW wc c)

/-- The dry-side candidate codes: canonical codes that appeared, together
with the cloud-equivalent targets of the wet codes that appeared, restricted
to the codes classified dry. -/
def dryKeys (cfg : Config) (wc : List (Nat × Code)) : List Code :=
  ((tallyKeys wc ++
      (((tallyKeys wc).filter fun c => decide (c ∈ cfg.wetCodes)).map
        cfg.cloudEquivalent)).dedup).filter fun c => decide (c ∈ cfg.dryCodes)

/-- The dry-side candidate tally: folded weights on the dry candidate codes. -/
def dryPairs (cfg : Config) (wc : List (Nat × Code)) : List (Code × Nat) :=
  (dryKeys cfg wc).map fun c => (c, foldedW cfg wc c)

/-- First maximum of a list under a weight function: the earliest element
attaining the maximal weight (a later element replaces the current best only
when strictly heavier). -/
def argmaxFirst (f : α → Nat) : List α → Option α
  | [] => none
  | a :: rest =>
    match argmaxFirst f rest with
    | none => some a
    | some b => if f a < f b then some b else some a

/-- Look a code's weight up in a candidate tally (0 when absent). -/
def lookupW (pairs : List (Code × Nat)) (c : Code) : Nat :=
  match pairs.find? fun p => p.1 == c with
  | some p => p.2
  | none => 0

/-- Whether a code is present in a candidate tally. -/
def hasKey (pairs : List (Code × Nat)) (c : Code) : Bool :=
  (pairs.find? fun p => p.1 == c).isSome

/-- The consolidated entry of one intensity group: its combined member weight
attached to the representative member — the present member with maximal
individual weight, earliest in the member list on ties; `none` when no member
is present in the tally. -/
def intensityEntry (pairs : List (Code × Nat)) (g : List Code) : Option (Code × Nat) :=
  match argmaxFirst (lookupW pairs) (g.filter fun c => hasKey pairs c) with
  | none => none
  | some rep => some (rep, ((g.filter fun c => hasKey pairs c).map (lookupW pairs)).sum)

/-- Modelled from the spec: the intensity pre-consolidation pass.  For every
intensity group with members present in the tally, the members' weights are
combined onto a single representative — the member with maximal individual
weight, earliest in the group's member list on ties — while codes belonging
to no group keep their own weight. -/
def consolidateIntensity (groups : List (List Code)) (pairs : List (Code × Nat)) :
    List (Code × Nat) :=
  (pairs.filter fun p => !(groups.any fun g => g.contains p.1)) ++
    groups.filterMap (intensityEntry pairs)

/-- The summed member weight of a group. -/
def groupWeight (pairs : List (Code × Nat)) (g : List Code) : Nat :=
  (g.map (lookupW pairs)).sum

/-- Modelled from the spec: the groups competing in the group consolidator —
the declared groups restricted to members present in the tally (groups with
no present member drop out), followed by a singleton group for every tallied
code that belongs to no declared group. -/
def candidateGroups (groups : List (List Code)) (pairs : List (Code × Nat)) :
    List (List Code) :=
  ((groups.map fun g => g.filter fun c => hasKey pairs c).filter fun g => !g.isEmpty) ++
    ((pairs.filter fun p => !(groups.any fun g => g.contains p.1)).map fun p => [p.1])

/-- Modelled from the spec: the group consolidator.  The winning group has
maximal summed member weight, ties broken by declaration order (earliest
wins); within the winning group the winning code has maximal individual
weight, ties broken by member-list order (earliest wins). -/
def groupConsolidate (groups : List (List Code)) (pairs : List (Code × Nat)) :
    Option Code :=
  match argmaxFirst (groupWeight pairs) (candidateGroups groups pairs) with
  | none => none
  | some win => argmaxFirst (lookupW pairs) win

/-- The better of two tally entries for the mode selector: higher weight
wins, and on equal weight the higher code wins. -/
def bestPair : List (Code × Nat) → Option (Code × Nat)
  | [] => none
  | p :: rest =>
    match bestPair rest with
    | none => some p
    | some q => if p.2 < q.2 ∨ (p.2 = q.2 ∧ p.1 < q.1) then some q else some p

/-- Modelled from the spec: the no-grouping fallback selector — the code with
maximal weight, ties broken by the highest numeric code value. -/
def modeSelect (pairs : List (Code × Nat)) : Option Code :=
  (bestPair pairs).map Prod.fst

/-- Apply the intensity pre-consolidation when an intensity group set is
configured; otherwise leave the tally unchanged. -/
def applyIntensity (cfg : Config) (pairs : List (Code × Nat)) : List (Code × Nat) :=
  match cfg.intensityGroups with
  | none => pairs
  | some gs => consolidateIntensity gs pairs

/-- Modelled from the spec: per-point selection from the weighted canonical
series.  Classify wet/dry from the unfolded totals; on the wet side apply the
optional intensity pass and consolidate through the wet sub-category groups;
on the dry side (which has no configured group set) apply the optional
intensity pass to the folded dry tally and fall back to the mode selector. -/
def modalFromWeighted (cfg : Config) (wc : List (Nat × Code)) : Option Code :=
  if isWetPoint cfg wc then
    groupConsolidate cfg.wetGroups (applyIntensity cfg (wetPairs cfg wc))
  else
    modeSelect (applyIntensity cfg (dryPairs cfg wc))

/-- Modelled from the spec: the whole per-point computation — canonicalize
and weight, then select. -/
def modalCode (cfg : Config) (series : List (Nat × Code)) : Option Code :=
  modalFromWeighted cfg (weightedCanon cfg series)

/-- One input diagnostic: its period (the common inter-step duration implied
by its time bounds) and its per-point series of (hour offset, raw code). -/
structure InputSeries where
  period : Nat
  data : List (Nat × Code)

/-- The fatal message for inconsistent input periods. -/
def periodError : String := "Input diagnostics do not have consistent periods."

/-- Modelled from the spec: batch processing.  All inputs must share one
common period; a mismatch is fatal for the whole batch, detected before any
point-level computation, and no partial result is returned. -/
def processBatch (cfg : Config) : List InputSeries → Except String (List (Option Code))
  | [] => .ok []
  | i :: rest =>
    if rest.all fun j => j.period == i.period then
      .ok ((i :: rest).map fun s => modalCode cfg s.data)
    else
      .error periodError

/-- Modelled from the spec: the decision tree's day-form lookup for the
standard weather-code set — each nocturnal code maps to its daytime
rendering, every other code to itself. -/
def wxDayForm (n : Code) : Code :=
  if n = 0 then 1 else if n = 2 then 3 else if n = 9 then 10
  else if n = 13 then 14 else if n = 16 then 17 else if n = 19 then 20
  else if n = 22 then 23 else if n = 25 then 26 else if n = 28 then 29
  else n

/-- Modelled from the spec: the decision tree's cloud-equivalent lookup —
each shower-type wet code implies partly-cloudy cover (3), every other wet
code implies overcast cover (8); dry codes are untouched. -/
def wxCloudEquivalent (n : Code) : Code :=
  if n = 10 ∨ n = 14 ∨ n = 17 ∨ n = 20 ∨ n = 23 ∨ n = 26 ∨ n = 29 then 3
  else if n = 11 ∨ n = 12 ∨ n = 15 ∨ n = 18 ∨ n = 21 ∨ n = 24 ∨ n = 27 ∨ n = 30 then 8
  else n

/-- The broad wet category of the test configuration. -/
def wetCodesList : List Code := [10, 11, 12, 14, 15, 17, 18, 20, 21, 23, 24, 26, 27, 29, 30]

/-- The broad dry category of the test configuration. -/
def dryCodesList : List Code := [1, 3, 4, 5, 6, 7, 8]

/-- The wet sub-category groups of the test configuration, in declared
priority order: extreme convection, frozen, liquid. -/
def wetGroupsList : List (List Code) :=
  [[30, 29, 21, 20], [27, 26, 24, 23, 18, 17], [15, 14, 12, 11, 10]]

/-- The wet sub-category groups with each member list reversed. -/
def wetGroupsRevMembers : List (List Code) :=
  [[20, 21, 29, 30], [17, 18, 23, 24, 26, 27], [10, 11, 12, 14, 15]]

/-- The wet sub-category groups with member lists and declaration order both
reversed. -/
def wetGroupsRevBoth : List (List Code) :=
  [[10, 11, 12, 14, 15], [17, 18, 23, 24, 26, 27], [20, 21, 29, 30]]

/-- The intensity groups of the test configuration, in declared order. -/
def intensityGroupsList : List (List Code) :=
  [[14, 10], [15, 12], [26, 23], [27, 24], [30, 29], [7, 8], [3, 1], [5, 6]]

/-- The intensity groups with each member list reversed. -/
def intensityGroupsRev : List (List Code) :=
  [[10, 14], [12, 15], [23, 26], [24, 27], [29, 30], [8, 7], [1, 3], [6, 5]]

/-- The default configuration used by the unit tests: default wet bias 1 and
day weighting 1 (so the diurnal window is irrelevant), no intensity groups. -/
def defaultConfig : Config :=
  { dayForm := wxDayForm
    cloudEquivalent := wxCloudEquivalent
    wetCodes := wetCodesList
    dryCodes := dryCodesList
    wetGroups := wetGroupsList
    intensityGroups := none
    wetBias := 1
    dayWeighting := 1
    dayStart := 6
    dayEnd := 18
    dayLength := 24 }

/-- The default configuration extended with the intensity group set. -/
def intensityConfig : Config :=
  { defaultConfig with intensityGroups := some intensityGroupsList }

/-- The default configuration extended with the reversed intensity group
set. -/
def intensityConfigRev : Config :=
  { defaultConfig with intensityGroups := some intensityGroupsRev }

/-- An hourly series starting at the series origin: code `i` of the list is
valid at hour offset `i`. -/
def hourly (codes : List Code) : List (Nat × Code) :=
  codes.enum

/-! ### Lemmas about the first-maximum selector -/

lemma argmaxFirst_ne_none (f : α → Nat) (a : α) (l : List α) :
    argmaxFirst f (a :: l) ≠ none := by
  cases hrec : argmaxFirst f l with
  | none => simp [argmaxFirst, hrec]
  | some b => simp only [argmaxFirst, hrec]; split <;> simp

/-- The first-maximum selector returns the earliest element attaining the
maximal weight: the list splits at the result, every earlier element is
strictly lighter, every later element no heavier. -/
lemma argmaxFirst_split (f : α → Nat) :
    ∀ (l : List α) (a : α), argmaxFirst f l = some a →
      ∃ l₁ l₂, l = l₁ ++ a :: l₂ ∧ (∀ b ∈ l₁, f b < f a) ∧ (∀ b ∈ l₂, f b ≤ f a) := by
  intro l
  induction l with
  | nil => intro a h; simp [argmaxFirst] at h
  | cons x rest ih =>
    intro a h
    cases hrec : argmaxFirst f rest with
    | none =>
      simp only [argmaxFirst, hrec] at h
      obtain rfl : x = a := by simpa using h
      obtain rfl : rest = [] := by
        cases rest with
        | nil => rfl
        | cons y t => exact absurd hrec (argmaxFirst_ne_none f y t)
      exact ⟨[], [], rfl, by simp, by simp⟩
    | some b =>
      simp only [argmaxFirst, hrec] at h
      by_cases hlt : f x < f b
      · rw [if_pos hlt] at h
        obtain rfl : b = a := by simpa using h
        obtain ⟨r₁, r₂, hr, h₁, h₂⟩ := ih b hrec
        refine ⟨x :: r₁, r₂, by rw [hr]; rfl, ?_, h₂⟩
        intro c hc
        rcases List.mem_cons.1 hc with rfl | hc
        · exact hlt
        · exact h₁ c hc
      · rw [if_neg hlt] at h
        obtain rfl : x = a := by simpa using h
        refine ⟨[], rest, rfl, by simp, ?_⟩
        intro c hc
        obtain ⟨r₁, r₂, hr, h₁, h₂⟩ := ih b hrec
        have hcb : f c ≤ f b := by
          rw [hr] at hc
          rcases List.mem_append.1 hc with hc | hc
          · exact Nat.le_of_lt (h₁ c hc)
          · rcases List.mem_cons.1 hc with rfl | hc
            · exact Nat.le_refl _
            · exact h₂ c hc
        exact hcb.trans (Nat.le_of_not_lt hlt)

lemma argmaxFirst_mem (f : α → Nat) (l : List α) (a : α)
    (h : argmaxFirst f l = some a) : a ∈ l := by
  obtain ⟨l₁, l₂, hl, -, -⟩ := argmaxFirst_split f l a h
  rw [hl]
  exact List.mem_append.2 (Or.inr (List.mem_cons_self _ _))

lemma argmaxFirst_le (f : α → Nat) (l : List α) (a : α)
    (h : argmaxFirst f l = some a) : ∀ b ∈ l, f b ≤ f a := by
  obtain ⟨l₁, l₂, hl, h₁, h₂⟩ := argmaxFirst_split f l a h
  intro b hb
  rw [hl] at hb
  rcases List.mem_append.1 hb with hb | hb
  · exact Nat.le_of_lt (h₁ b hb)
  · rcases List.mem_cons.1 hb with rfl | hb
    · exact Nat.le_refl _
    · exact h₂ b hb

/-! ### Lemmas about the mode selector -/

lemma bestPair_spec :
    ∀ (l : List (Code × Nat)) (p : Code × Nat), bestPair l = some p →
      p ∈ l ∧ ∀ q ∈ l, q.2 ≤ p.2 ∧ (q.2 = p.2 → q.1 ≤ p.1) := by
  intro l
  induction l with
  | nil => intro p h; simp [bestPair] at h
  | cons x rest ih =>
    intro p h
    cases hrec : bestPair rest with
    | none =>
      simp only [bestPair, hrec] at h
      obtain rfl : x = p := by simpa using h
      obtain rfl : rest = [] := by
        cases rest with
        | nil => rfl
        | cons y t =>
          exfalso
          cases hrec2 : bestPair t with
          | none => simp [bestPair, hrec2] at hrec
          | some q =>
            simp only [bestPair, hrec2] at hrec
            revert hrec; split <;> simp
      exact ⟨List.mem_cons_self _ _, by simp⟩
    | some q =>
      simp only [bestPair, hrec] at h
      obtain ⟨hqmem, hq⟩ := ih q hrec
      by_cases hc : x.2 < q.2 ∨ (x.2 = q.2 ∧ x.1 < q.1)
      · rw [if_pos hc] at h
        obtain rfl : q = p := by simpa using h
        refine ⟨List.mem_cons_of_mem _ hqmem, ?_⟩
        intro r hr
        rcases List.mem_cons.1 hr with rfl | hr
        · rcases hc with hc | ⟨hc₁, hc₂⟩
          · exact ⟨Nat.le_of_lt hc, fun he => by omega⟩
          · exact ⟨Nat.le_of_eq hc₁, fun _ => Nat.le_of_lt hc₂⟩
        · exact hq r hr
      · rw [if_neg hc] at h
        obtain rfl : x = p := by simpa using h
        push_neg at hc
        obtain ⟨hle, himp⟩ := hc
        have hqx : q.2 ≤ x.2 := hle
        refine ⟨List.mem_cons_self _ _, ?_⟩
        intro r hr
        rcases List.mem_cons.1 hr with rfl | hr
        · exact ⟨Nat.le_refl _, fun _ => Nat.le_refl _⟩
        · obtain ⟨hr₂, hr₁⟩ := hq r hr
          refine ⟨hr₂.trans hqx, fun he => ?_⟩
          have hq2 : r.2 = q.2 := Nat.le_antisymm hr₂ (by rw [he]; exact hqx)
          have hx2 : x.2 = q.2 := by rw [← he, hq2]
          exact (hr₁ hq2).trans (himp hx2)

lemma modeSelect_spec (pairs : List (Code × Nat)) (c : Code)
    (h : modeSelect pairs = some c) :
    ∃ w, (c, w) ∈ pairs ∧ ∀ q ∈ pairs, q.2 ≤ w ∧ (q.2 = w → q.1 ≤ c) := by
  obtain ⟨p, hp, rfl⟩ : ∃ p, bestPair pairs = some p ∧ p.1 = c := by
    cases hb : bestPair pairs with
    | none => simp [modeSelect, hb] at h
    | some p => exact ⟨p, rfl, by simpa [modeSelect, hb] using h⟩
  obtain ⟨hmem, hall⟩ := bestPair_spec pairs p hp
  exact ⟨p.2, hmem, hall⟩

lemma modeSelect_mem (pairs : List (Code × Nat)) (c : Code)
    (h : modeSelect pairs = some c) : c ∈ pairs.map Prod.fst := by
  obtain ⟨w, hmem, -⟩ := modeSelect_spec pairs c h
  exact List.mem_map.2 ⟨(c, w), hmem, rfl⟩

/-! ### Keys of the intermediate tallies -/

lemma hasKey_iff (pairs : List (Code × Nat)) (c : Code) :
    hasKey pairs c = true ↔ c ∈ pairs.map Prod.fst := by
  unfold hasKey
  rw [List.find?_isSome]
  constructor
  · rintro ⟨p, hp, hpc⟩
    exact List.mem_map.2 ⟨p, hp, by simpa using hpc⟩
  · intro h
    obtain ⟨p, hp, rfl⟩ := List.mem_map.1 h
    exact ⟨p, hp, by simp⟩

lemma intensityEntry_keys (pairs : List (Code × Nat)) (g : List Code)
    (pr : Code × Nat) (h : intensityEntry pairs g = some pr) :
    pr.1 ∈ pairs.map Prod.fst ∧ pr.1 ∈ g := by
  unfold intensityEntry at h
  cases hm : argmaxFirst (lookupW pairs) (g.filter fun c => hasKey pairs c) with
  | none => rw [hm] at h; exact absurd h (by simp)
  | some rep =>
    rw [hm] at h
    obtain rfl : pr = (rep, ((g.filter fun c => hasKey pairs c).map (lookupW pairs)).sum) := by
      simpa using h.symm
    have hrep := argmaxFirst_mem _ _ _ hm
    have := List.mem_filter.1 hrep
    exact ⟨(hasKey_iff pairs rep).1 this.2, this.1⟩

lemma consolidateIntensity_keys (gs : List (List Code)) (pairs : List (Code × Nat))
    (c : Code) (h : c ∈ (consolidateIntensity gs pairs).map Prod.fst) :
    c ∈ pairs.map Prod.fst := by
  unfold consolidateIntensity at h
  rw [List.map_append] at h
  rcases List.mem_append.1 h with h | h
  · obtain ⟨p, hp, rfl⟩ := List.mem_map.1 h
    exact List.mem_map.2 ⟨p, (List.mem_filter.1 hp).1, rfl⟩
  · obtain ⟨pr, hpr, rfl⟩ := List.mem_map.1 h
    obtain ⟨g, -, hsome⟩ := List.mem_filterMap.1 hpr
    exact (intensityEntry_keys pairs g pr hsome).1

lemma applyIntensity_keys (cfg : Config) (pairs : List (Code × Nat))
    (c : Code) (h : c ∈ (applyIntensity cfg pairs).map Prod.fst) :
    c ∈ pairs.map Prod.fst := by
  unfold applyIntensity at h
  cases hig : cfg.intensityGroups with
  | none => rw [hig] at h; exact h
  | some gs => rw [hig] at h; exact consolidateIntensity_keys gs pairs c h

lemma candidateGroups_sub (groups : List (List Code)) (pairs : List (Code × Nat))
    (g : List Code) (hg : g ∈ candidateGroups groups pairs) :
    ∀ c ∈ g, c ∈ pairs.map Prod.fst := by
  unfold candidateGroups at hg
  rcases List.mem_append.1 hg with hg | hg
  · obtain ⟨g₀, -, rfl⟩ := List.mem_map.1 (List.mem_filter.1 hg).1
    intro c hc
    exact (hasKey_iff pairs c).1 (List.mem_filter.1 hc).2
  · obtain ⟨p, hp, rfl⟩ := List.mem_map.1 hg
    intro c hc
    obtain rfl : c = p.1 := by simpa using hc
    exact List.mem_map.2 ⟨p, (List.mem_filter.1 hp).1, rfl⟩

lemma groupConsolidate_mem (groups : List (List Code)) (pairs : List (Code × Nat))
    (c : Code) (h : groupConsolidate groups pairs = some c) :
    c ∈ pairs.map Prod.fst := by
  unfold groupConsolidate at h
  cases hm : argmaxFirst (groupWeight pairs) (candidateGroups groups pairs) with
  | none => rw [hm] at h; exact absurd h (by simp)
  | some win =>
    rw [hm] at h
    exact candidateGroups_sub groups pairs win (argmaxFirst_mem _ _ _ hm) c
      (argmaxFirst_mem _ _ _ h)

lemma wetPairs_keys (cfg : Config) (wc : List (Nat × Code)) (c : Code)
    (h : c ∈ (wetPairs cfg wc).map Prod.fst) :
    c ∈ tallyKeys wc ∧ c ∈ cfg.wetCodes := by
  unfold wetPairs at h
  rw [List.map_map] at h
  obtain ⟨k, hk, rfl⟩ := List.mem_map.1 h
  have := List.mem_filter.1 hk
  exact ⟨this.1, by simpa using this.2⟩

lemma dryPairs_keys (cfg : Config) (wc : List (Nat × Code)) (c : Code)
    (h : c ∈ (dryPairs cfg wc).map Prod.fst) :
    (c ∈ tallyKeys wc ∨ ∃ k ∈ tallyKeys wc, c = cfg.cloudEquivalent k) ∧
      c ∈ cfg.dryCodes := by
  unfold dryPairs at h
  rw [List.map_map] at h
  obtain ⟨k, hk, rfl⟩ := List.mem_map.1 h
  unfold dryKeys at hk
  have h₁ := List.mem_filter.1 hk
  refine ⟨?_, by simpa using h₁.2⟩
  have h₂ := List.mem_dedup.1 h₁.1
  rcases List.mem_append.1 h₂ with h₂ | h₂
  · exact Or.inl h₂
  · obtain ⟨k₀, hk₀, rfl⟩ := List.mem_map.1 h₂
    exact Or.inr ⟨k₀, (List.mem_filter.1 hk₀).1, rfl⟩

lemma tallyKeys_weightedCanon (cfg : Config) (series : List (Nat × Code)) (c : Code)
    (h : c ∈ tallyKeys (weightedCanon cfg series)) :
    ∃ r, c = cfg.dayForm r := by
  unfold tallyKeys weightedCanon at h
  rw [List.map_map] at h
  obtain ⟨p, -, hp⟩ := List.mem_map.1 (List.mem_dedup.1 h)
  exact ⟨p.2, hp.symm⟩

/-- Every code the per-point selection can emit is either a canonical code
that occurred or the cloud equivalent of a wet canonical code that occurred. -/
lemma modalFromWeighted_mem (cfg : Config) (wc : List (Nat × Code)) (c : Code)
    (h : modalFromWeighted cfg wc = some c) :
    c ∈ tallyKeys wc ∨ ∃ k ∈ tallyKeys wc, c = cfg.cloudEquivalent k := by
  unfold modalFromWeighted at h
  by_cases hw : isWetPoint cfg wc
  · rw [if_pos hw] at h
    have := groupConsolidate_mem _ _ _ h
    exact Or.inl (wetPairs_keys cfg wc c (applyIntensity_keys cfg _ c this)).1
  · rw [if_neg hw] at h
    have := modeSelect_mem _ _ h
    exact (dryPairs_keys cfg wc c (applyIntensity_keys cfg _ c this)).1

/-! ### Regrouping the per-code tallies into sums over the raw series -/

lemma sum_fst_filter_split (wc : List (Nat × Code)) (P : (Nat × Code) → Bool) :
    ((wc.filter P).map Prod.fst).sum + ((wc.filter fun p => !P p).map Prod.fst).sum
      = (wc.map Prod.fst).sum := by
  induction wc with
  | nil => simp
  | cons p t ih =>
    cases hp : P p <;> simp [List.filter_cons, hp] <;> omega

lemma tallyW_filter_keep (wc : List (Nat × Code)) (P : (Nat × Code) → Bool) (c : Code)
    (hP : ∀ p : Nat × Code, p.2 = c → P p = true) :
    tallyW (wc.filter P) c = tallyW wc c := by
  unfold tallyW
  rw [List.filter_filter]
  congr 2
  apply List.filter_congr
  intro p _
  cases hpc : (p.2 == c) with
  | false => simp
  | true => simp [hP p (by simpa using hpc)]

lemma sum_tallyW_of_nodup :
    ∀ (ks : List Code), ks.Nodup → ∀ (wc : List (Nat × Code)),
      (∀ p ∈ wc, p.2 ∈ ks) → (ks.map (tallyW wc)).sum = (wc.map Prod.fst).sum := by
  intro ks
  induction ks with
  | nil =>
    intro _ wc hall
    obtain rfl : wc = [] := List.eq_nil_iff_forall_not_mem.2 fun p hp => by
      simpa using hall p hp
    simp
  | cons k kt ih =>
    intro hnd wc hall
    have hknotin : k ∉ kt := (List.nodup_cons.1 hnd).1
    have hktnd : kt.Nodup := (List.nodup_cons.1 hnd).2
    have hcongr : kt.map (tallyW wc) = kt.map (tallyW (wc.filter fun p => !(p.2 == k))) := by
      apply List.map_congr_left
      intro c hc
      have hck : c ≠ k := fun he => hknotin (he ▸ hc)
      exact (tallyW_filter_keep wc _ c fun p hp => by simp [hp, hck]).symm
    have hsub : ∀ p ∈ wc.filter fun p => !(p.2 == k), p.2 ∈ kt := by
      intro p hp
      have h₁ := List.mem_filter.1 hp
      have h₂ : p.2 ≠ k := by simpa using h₁.2
      rcases List.mem_cons.1 (hall p h₁.1) with he | he
      · exact absurd he h₂
      · exact he
    calc ((k :: kt).map (tallyW wc)).sum
        = tallyW wc k + (kt.map (tallyW (wc.filter fun p => !(p.2 == k)))).sum := by
          rw [List.map_cons, List.sum_cons, hcongr]
      _ = tallyW wc k + ((wc.filter fun p => !(p.2 == k)).map Prod.fst).sum :=
          congrArg _ (ih hktnd _ hsub)
      _ = (wc.map Prod.fst).sum := sum_fst_filter_split wc fun p => p.2 == k

/-- The grand total computed from the per-code tallies equals the direct sum
of the diurnal weights over the whole series. -/
lemma grandTotal_eq (wc : List (Nat × Code)) :
    grandTotal wc = (wc.map Prod.fst).sum := by
  apply sum_tallyW_of_nodup (tallyKeys wc) (List.nodup_dedup _) wc
  intro p hp
  exact List.mem_dedup.2 (List.mem_map.2 ⟨p, hp, rfl⟩)

lemma sum_tallyW_filter (wc : List (Nat × Code)) (P : Code → Bool) :
    (((tallyKeys wc).filter P).map (tallyW wc)).sum
      = ((wc.filter fun p => P p.2).map Prod.fst).sum := by
  have hcongr : ((tallyKeys wc).filter P).map (tallyW wc)
      = ((tallyKeys wc).filter P).map (tallyW (wc.filter fun p => P p.2)) := by
    apply List.map_congr_left
    intro c hc
    have hPc : P c = true := (List.mem_filter.1 hc).2
    exact (tallyW_filter_keep wc _ c fun p hp => by rw [hp]; exact hPc).symm
  rw [hcongr]
  apply sum_tallyW_of_nodup _ ((List.nodup_dedup _).filter _) _
  intro p hp
  have h₁ := List.mem_filter.1 hp
  exact List.mem_filter.2
    ⟨List.mem_dedup.2 (List.mem_map.2 ⟨p, h₁.1, rfl⟩), h₁.2⟩

/-- The wet total computed from the per-code tallies equals the direct sum of
the diurnal weights over the wet timesteps of the series. -/
lemma wetTotal_eq (cfg : Config) (wc : List (Nat × Code)) :
    wetTotal cfg wc
      = ((wc.filter fun p => decide (p.2 ∈ cfg.wetCodes)).map Prod.fst).sum :=
  sum_tallyW_filter wc fun c => decide (c ∈ cfg.wetCodes)

/-! ### The concrete decision-tree lookups -/

lemma wxDayForm_default (x : Code) (h0 : x ≠ 0) (h2 : x ≠ 2) (h9 : x ≠ 9)
    (h13 : x ≠ 13) (h16 : x ≠ 16) (h19 : x ≠ 19) (h22 : x ≠ 22) (h25 : x ≠ 25)
    (h28 : x ≠ 28) : wxDayForm x = x := by
  simp [wxDayForm, h0, h2, h9, h13, h16, h19, h22, h25, h28]

/-- Day-form canonicalization is idempotent: the day form of any code is its
own day form. -/
lemma wxDayForm_idem (x : Code) : wxDayForm (wxDayForm x) = wxDayForm x := by
  by_cases h0 : x = 0
  · subst h0; decide
  by_cases h2 : x = 2
  · subst h2; decide
  by_cases h9 : x = 9
  · subst h9; decide
  by_cases h13 : x = 13
  · subst h13; decide
  by_cases h16 : x = 16
  · subst h16; decide
  by_cases h19 : x = 19
  · subst h19; decide
  by_cases h22 : x = 22
  · subst h22; decide
  by_cases h25 : x = 25
  · subst h25; decide
  by_cases h28 : x = 28
  · subst h28; decide
  rw [wxDayForm_default x h0 h2 h9 h13 h16 h19 h22 h25 h28]
  exact wxDayForm_default x h0 h2 h9 h13 h16 h19 h22 h25 h28

/-- The cloud-equivalent target of any day-form code is itself a day-form
code: shower codes map to 3, other wet codes map to 8, dry codes map to
themselves. -/
lemma wxDayForm_cloudEquivalent (x : Code) (hx : wxDayForm x = x) :
    wxDayForm (wxCloudEquivalent x) = wxCloudEquivalent x := by
  by_cases h1 : x = 10 ∨ x = 14 ∨ x = 17 ∨ x = 20 ∨ x = 23 ∨ x = 26 ∨ x = 29
  · rw [wxCloudEquivalent, if_pos h1]; decide
  by_cases h2 : x = 11 ∨ x = 12 ∨ x = 15 ∨ x = 18 ∨ x = 21 ∨ x = 24 ∨ x = 27 ∨ x = 30
  · rw [wxCloudEquivalent, if_neg h1, if_pos h2]; decide
  · rw [wxCloudEquivalent, if_neg h1, if_neg h2]; exact hx

/-! ### The claims -/

/-- Claim C1: the broad category is decided from the unfolded,
diurnally-weighted per-code weights as wet exactly when
`wet_total ≥ grand_total / (1 + wet_bias)` (stated over the rationals, with
the totals expanded to direct sums over the weighted series), and in the
boundary case of an equal wet/dry split under the default `wet_bias = 1` —
where the wet weight exactly equals the threshold — the point is classified
wet (the test series `[1, 3, 4, 5, 10, 17, 20, 23]` yields the wet code
`23`). -/
theorem c1_broad_category_threshold :
    (∀ (cfg : Config) (wc : List (Nat × Code)),
      isWetPoint cfg wc = true ↔
        (((wc.filter fun p => decide (p.2 ∈ cfg.wetCodes)).map Prod.fst).sum : ℚ)
          ≥ ((wc.map Prod.fst).sum : ℚ) / (1 + (cfg.wetBias : ℚ)))
    ∧ modalCode defaultConfig (hourly [1, 3, 4, 5, 10, 17, 20, 23]) = some 23
    ∧ 23 ∈ defaultConfig.wetCodes
    ∧ 2 * wetTotal defaultConfig (weightedCanon defaultConfig (hourly [1, 3, 4, 5, 10, 17, 20, 23]))
        = grandTotal (weightedCanon defaultConfig (hourly [1, 3, 4, 5, 10, 17, 20, 23])) := by
  refine ⟨?_, by decide, by decide, by decide⟩
  intro cfg wc
  unfold isWetPoint
  rw [decide_eq_true_iff, grandTotal_eq, ← wetTotal_eq]
  rw [ge_iff_le, div_le_iff₀ (by positivity)]
  constructor
  · intro h; exact_mod_cast h
  · intro h; exact_mod_cast h

/-- Claim C2: every raw code is rewritten to its day form before any
tallying, classification or grouping — pre-canonicalizing the input series
changes nothing — and the emitted code is always in canonical day form, even
for a single-timestep series whose lone nocturnal code 16 is reported as its
day form 17. -/
theorem c2_day_form_canonicalization :
    (∀ (cfg : Config) (series : List (Nat × Code)),
      (∀ x, cfg.dayForm (cfg.dayForm x) = cfg.dayForm x) →
      modalCode cfg (series.map fun p => (p.1, cfg.dayForm p.2)) = modalCode cfg series)
    ∧ (∀ (series : List (Nat × Code)) (c : Code),
        modalCode defaultConfig series = some c → wxDayForm c = c)
    ∧ modalCode defaultConfig [(0, 16)] = some 17 := by
  refine ⟨?_, ?_, by decide⟩
  · intro cfg series hid
    unfold modalCode
    congr 1
    unfold weightedCanon
    rw [List.map_map]
    apply List.map_congr_left
    intro p _
    simp [Function.comp, hid p.2]
  · intro series c h
    unfold modalCode at h
    rcases modalFromWeighted_mem defaultConfig (weightedCanon defaultConfig series) c h with
      hm | ⟨k, hk, rfl⟩
    · obtain ⟨r, rfl⟩ := tallyKeys_weightedCanon defaultConfig series c hm
      exact wxDayForm_idem r
    · obtain ⟨r, rfl⟩ := tallyKeys_weightedCanon defaultConfig series k hk
      exact wxDayForm_cloudEquivalent _ (wxDayForm_idem r)

/-- Witness for claim C2 at concrete inputs: pre-canonicalizing the
single-timestep series `[16]` changes nothing, and its emitted code 17 is a
day-form fixed point. -/
theorem c2_day_form_canonicalization_witness :
    modalCode defaultConfig ([(0, 16)].map fun p => (p.1, defaultConfig.dayForm p.2))
        = modalCode defaultConfig [(0, 16)]
    ∧ wxDayForm 17 = 17 :=
  ⟨c2_day_form_canonicalization.1 defaultConfig [(0, 16)] wxDayForm_idem,
    c2_day_form_canonicalization.2.1 [(0, 16)] 17 c2_day_form_canonicalization.2.2⟩

/-- Claim C5: the no-grouping mode selector picks a code of maximal weighted
tally and among equally heavy codes the numerically largest; the two-step
tied series `[1, 21]` yields 21 and the all-distinct dry series
`[1, 3, 4, 5]` yields the numerically largest dry code 5. -/
theorem c5_mode_selector_numeric_tiebreak :
    (∀ (pairs : List (Code × Nat)) (c : Code), modeSelect pairs = some c →
      ∃ w, (c, w) ∈ pairs ∧ ∀ q ∈ pairs, q.2 ≤ w ∧ (q.2 = w → q.1 ≤ c))
    ∧ modalCode defaultConfig (hourly [1, 21]) = some 21
    ∧ modalCode defaultConfig (hourly [1, 3, 4, 5]) = some 5 :=
  ⟨modeSelect_spec, by decide, by decide⟩

/-- Witness for claim C5 at a concrete tied tally: the selection from
`[(1, 2), (21, 2)]` is a maximal-weight code dominating numerically. -/
theorem c5_mode_selector_numeric_tiebreak_witness :
    ∃ w, ((21 : Code), w) ∈ [((1 : Code), 2), ((21 : Code), 2)] ∧
      ∀ q ∈ [((1 : Code), 2), ((21 : Code), 2)], q.2 ≤ w ∧ (q.2 = w → q.1 ≤ 21) :=
  c5_mode_selector_numeric_tiebreak.1 [(1, 2), (21, 2)] 21 (by decide)

/-- Claim C3: the group consolidator's winner comes from the group that is
maximal in summed member weight, with every earlier-declared competing group
strictly lighter (so ties go to the earliest declaration), and within that
group the winner is maximal in individual tally with every earlier-listed
member strictly lighter (so ties go to the earliest member); consequently, in
the tied test cases, reversing the member-list order or the declared group
order changes the emitted code. -/
theorem c3_group_consolidator_order :
    (∀ (groups : List (List Code)) (pairs : List (Code × Nat)) (c : Code),
      groupConsolidate groups pairs = some c →
      ∃ pre win post, candidateGroups groups pairs = pre ++ win :: post ∧
        (∀ g ∈ pre, groupWeight pairs g < groupWeight pairs win) ∧
        (∀ g ∈ post, groupWeight pairs g ≤ groupWeight pairs win) ∧
        ∃ mpre mpost, win = mpre ++ c :: mpost ∧
          (∀ d ∈ mpre, lookupW pairs d < lookupW pairs c) ∧
          (∀ d ∈ mpost, lookupW pairs d ≤ lookupW pairs c))
    ∧ modalCode { defaultConfig with wetBias := 2 }
        (hourly [1, 3, 4, 5, 7, 8, 10, 10, 14, 14]) = some 14
    ∧ modalCode { defaultConfig with wetBias := 2, wetGroups := wetGroupsRevMembers }
        (hourly [1, 3, 4, 5, 7, 8, 10, 10, 14, 14]) = some 10
    ∧ modalCode { defaultConfig with wetBias := 2, wetGroups := wetGroupsRevMembers }
        (hourly [1, 3, 4, 5, 7, 8, 10, 10, 18, 18]) = some 18
    ∧ modalCode { defaultConfig with wetBias := 2, wetGroups := wetGroupsRevBoth }
        (hourly [1, 3, 4, 5, 7, 8, 10, 10, 18, 18]) = some 10 := by
  refine ⟨?_, by decide, by decide, by decide, by decide⟩
  intro groups pairs c h
  unfold groupConsolidate at h
  cases hm : argmaxFirst (groupWeight pairs) (candidateGroups groups pairs) with
  | none => rw [hm] at h; exact absurd h (by simp)
  | some win =>
    rw [hm] at h
    obtain ⟨pre, post, hsplit, hlt, hle⟩ := argmaxFirst_split _ _ _ hm
    obtain ⟨mpre, mpost, hwin, hmlt, hmle⟩ := argmaxFirst_split _ _ _ h
    exact ⟨pre, win, post, hsplit, hlt, hle, mpre, mpost, hwin, hmlt, hmle⟩

/-- Witness for claim C3 at a concrete tied wet tally
`[(17, 4), (26, 1), (23, 3)]` under the declared wet groups. -/
theorem c3_group_consolidator_order_witness :
    ∃ pre win post,
      candidateGroups wetGroupsList [(17, 4), (26, 1), (23, 3)] = pre ++ win :: post ∧
        (∀ g ∈ pre, groupWeight [(17, 4), (26, 1), (23, 3)] g
            < groupWeight [(17, 4), (26, 1), (23, 3)] win) ∧
        (∀ g ∈ post, groupWeight [(17, 4), (26, 1), (23, 3)] g
            ≤ groupWeight [(17, 4), (26, 1), (23, 3)] win) ∧
        ∃ mpre mpost, win = mpre ++ 17 :: mpost ∧
          (∀ d ∈ mpre, lookupW [(17, 4), (26, 1), (23, 3)] d
              < lookupW [(17, 4), (26, 1), (23, 3)] 17) ∧
          (∀ d ∈ mpost, lookupW [(17, 4), (26, 1), (23, 3)] d
              ≤ lookupW [(17, 4), (26, 1), (23, 3)] 17) :=
  c3_group_consolidator_order.1 wetGroupsList [(17, 4), (26, 1), (23, 3)] 17 (by decide)

/-- Claim C4: during tally construction the diurnal weight of every wet
canonical code is additionally credited to its cloud-equivalent bucket,
unconditionally (the folded tally of any bucket equals its unfolded tally
plus the summed weight of the wet timesteps whose cloud equivalent is that
bucket, for every series); there is no symmetric fold into wet buckets
(whenever no wet code's cloud equivalent is wet, the folded tally of a wet
code equals its unfolded tally); and this fold can change which dry code wins
a dry-dominated point (`[1, 1, 1, 8, 12, 12]` yields 8 although without the
wet codes `[1, 1, 1, 8]` yields 1). -/
theorem c4_cloud_equivalent_folding :
    (∀ (cfg : Config) (wc : List (Nat × Code)) (c : Code),
      foldedW cfg wc c = tallyW wc c +
        ((wc.filter fun p =>
            decide (p.2 ∈ cfg.wetCodes) && (cfg.cloudEquivalent p.2 == c)).map Prod.fst).sum)
    ∧ (∀ (cfg : Config) (wc : List (Nat × Code)) (c : Code), c ∈ cfg.wetCodes →
        (∀ k ∈ cfg.wetCodes, cfg.cloudEquivalent k ∉ cfg.wetCodes) →
        foldedW cfg wc c = tallyW wc c)
    ∧ modalCode defaultConfig (hourly [1, 1, 1, 8, 12, 12]) = some 8
    ∧ modalCode defaultConfig (hourly [1, 1, 1, 8]) = some 1 := by
  refine ⟨?_, ?_, by decide, by decide⟩
  · intro cfg wc c
    unfold foldedW
    congr 1
    exact sum_tallyW_filter wc fun k => decide (k ∈ cfg.wetCodes) && (cfg.cloudEquivalent k == c)
  · intro cfg wc c hc hno
    unfold foldedW
    have hnil : ((tallyKeys wc).filter fun k =>
        decide (k ∈ cfg.wetCodes) && (cfg.cloudEquivalent k == c)) = [] := by
      rw [List.filter_eq_nil_iff]
      intro k _
      simp only [Bool.and_eq_true, decide_eq_true_eq, beq_iff_eq, not_and]
      intro hkw hek
      exact hno k hkw (hek ▸ hc)
    rw [hnil]
    simp

/-- Witness for claim C4: the folded tally of the wet code 10 on the
weighted canonical series of `[1, 1, 1, 2, 2, 9]` equals its unfolded
tally — nothing is folded into a wet bucket. -/
theorem c4_cloud_equivalent_folding_witness :
    foldedW defaultConfig (weightedCanon defaultConfig (hourly [1, 1, 1, 2, 2, 9])) 10
      = tallyW (weightedCanon defaultConfig (hourly [1, 1, 1, 2, 2, 9])) 10 :=
  c4_cloud_equivalent_folding.2.1 defaultConfig
    (weightedCanon defaultConfig (hourly [1, 1, 1, 2, 2, 9])) 10 (by decide)
    (by intro k hk; fin_cases hk <;> decide)

/-- Claim C6: the diurnal weight of a timestamp equals `day_weighting`
exactly when `day_start ≠ day_end` and the hour of cycle lies in the
half-open window, and 1 otherwise; in particular when `day_start = day_end`
the whole computation is identical to running with `day_weighting = 1`, for
every series and every configured weighting (illustrated by the test series
`[17, 17, 17, 17, 26, 23, 23, 23]` with `day_weighting = 10` and
`day_start = day_end = 3`, which still yields 17). -/
theorem c6_diurnal_weight_noop :
    (∀ (cfg : Config) (t : Nat),
      diurnalWeight cfg t =
        if cfg.dayStart ≠ cfg.dayEnd ∧
            cfg.dayStart ≤ t % cfg.dayLength ∧ t % cfg.dayLength < cfg.dayEnd then
          cfg.dayWeighting
        else 1)
    ∧ (∀ (cfg : Config) (series : List (Nat × Code)) (w : Nat),
        cfg.dayStart = cfg.dayEnd →
        modalCode { cfg with dayWeighting := w } series
          = modalCode { cfg with dayWeighting := 1 } series)
    ∧ modalCode { defaultConfig with dayWeighting := 10, dayStart := 3, dayEnd := 3, dayLength := 8 }
        (hourly [17, 17, 17, 17, 26, 23, 23, 23]) = some 17
    ∧ modalCode { defaultConfig with dayWeighting := 1, dayStart := 3, dayEnd := 3, dayLength := 8 }
        (hourly [17, 17, 17, 17, 26, 23, 23, 23]) = some 17 := by
  refine ⟨fun cfg t => rfl, ?_, by decide, by decide⟩
  intro cfg series w h
  have hwc : weightedCanon { cfg with dayWeighting := w } series
      = weightedCanon { cfg with dayWeighting := 1 } series := by
    unfold weightedCanon
    apply List.map_congr_left
    intro p _
    simp [diurnalWeight, h]
  unfold modalCode
  rw [hwc]
  rfl

/-- Witness for claim C6: disabling the diurnal window makes a configured
weighting of 10 act exactly like a weighting of 1 on a concrete series. -/
theorem c6_diurnal_weight_noop_witness :
    modalCode { { defaultConfig with dayStart := 3, dayEnd := 3, dayLength := 8 } with
        dayWeighting := 10 } (hourly [17, 17, 17, 17, 26, 23, 23, 23])
      = modalCode { { defaultConfig with dayStart := 3, dayEnd := 3, dayLength := 8 } with
        dayWeighting := 1 } (hourly [17, 17, 17, 17, 26, 23, 23, 23]) :=
  c6_diurnal_weight_noop.2.1 { defaultConfig with dayStart := 3, dayEnd := 3, dayLength := 8 }
    (hourly [17, 17, 17, 17, 26, 23, 23, 23]) 10 rfl

/-- Claim C7: with an intensity group set configured, the variants of one
phenomenon combine their weight — every declared group with present members
contributes to the consolidated tally a single entry carrying the group's
summed present weight, attached to the present member of maximal individual
weight chosen by position on ties — before the broad/group decision; with it,
`[23, 23, 23, 26, 17, 17, 17, 17]` yields 23 (the snow showers' combined
weight beats the sleet showers) while without it each variant competes alone
and the same series yields 17; in the tied case
`[23, 23, 26, 26, 17, 17, 17, 17]` the earliest-listed member 26 wins, and
reversing the member lists flips the result to 23; the pass also applies to
dry codes (`[5, 5, 6, 6, 1, 1, 1]` yields 5). -/
theorem c7_intensity_consolidation :
    (∀ (gs : List (List Code)) (pairs : List (Code × Nat)) (g : List Code) (rep : Code),
      g ∈ gs →
      argmaxFirst (lookupW pairs) (g.filter fun c => hasKey pairs c) = some rep →
      (rep, ((g.filter fun c => hasKey pairs c).map (lookupW pairs)).sum)
        ∈ consolidateIntensity gs pairs)
    ∧ modalCode intensityConfig (hourly [23, 23, 23, 26, 17, 17, 17, 17]) = some 23
    ∧ modalCode defaultConfig (hourly [23, 23, 23, 26, 17, 17, 17, 17]) = some 17
    ∧ modalCode intensityConfig (hourly [23, 23, 26, 26, 17, 17, 17, 17]) = some 26
    ∧ modalCode intensityConfigRev (hourly [23, 23, 26, 26, 17, 17, 17, 17]) = some 23
    ∧ modalCode intensityConfig (hourly [5, 5, 6, 6, 1, 1, 1]) = some 5 := by
  refine ⟨?_, by decide, by decide, by decide, by decide, by decide⟩
  intro gs pairs g rep hg harg
  unfold consolidateIntensity
  apply List.mem_append.2
  refine Or.inr (List.mem_filterMap.2 ⟨g, hg, ?_⟩)
  unfold intensityEntry
  rw [harg]

/-- Witness for claim C7 on the concrete snow-shower tally
`[(17, 4), (26, 1), (23, 3)]`: the snow-shower group contributes its combined
weight 4 on the representative 23. -/
theorem c7_intensity_consolidation_witness :
    ((23 : Code), (([26, 23].filter fun c => hasKey [(17, 4), (26, 1), (23, 3)] c).map
        (lookupW [(17, 4), (26, 1), (23, 3)])).sum)
      ∈ consolidateIntensity intensityGroupsList [(17, 4), (26, 1), (23, 3)] :=
  c7_intensity_consolidation.1 intensityGroupsList [(17, 4), (26, 1), (23, 3)]
    [26, 23] 23 (by decide) (by decide)

/-- Claim C8: when the input diagnostics do not all share one common period,
the whole batch fails with the error "Input diagnostics do not have
consistent periods." before any point-level computation — the same error is
produced however the per-point series data is replaced — and no partial
result is returned. -/
theorem c8_inconsistent_periods_error :
    ∀ (cfg : Config) (i : InputSeries) (rest : List InputSeries),
      ¬(∀ j ∈ rest, j.period = i.period) →
      processBatch cfg (i :: rest) = .error periodError ∧
      ∀ (f : List (Nat × Code) → List (Nat × Code)),
        processBatch cfg ((i :: rest).map fun s => ⟨s.period, f s.data⟩)
          = .error periodError := by
  intro cfg i rest hmis
  have hall : (rest.all fun j => j.period == i.period) = false := by
    rcases Bool.eq_false_or_eq_true (rest.all fun j => j.period == i.period) with h | h
    · exact absurd (fun j hj => by simpa using List.all_eq_true.1 h j hj) hmis
    · exact h
  constructor
  · simp [processBatch, hall]
  · intro f
    have hall' : ((rest.map fun s => (⟨s.period, f s.data⟩ : InputSeries)).all
        fun j => j.period == i.period) = false := by
      rw [List.all_map]
      exact hall
    simp [processBatch, hall']

/-- Witness for claim C8: a concrete two-diagnostic batch with periods 3600
and 5400 fails with the period error, whatever its data. -/
theorem c8_inconsistent_periods_error_witness :
    processBatch defaultConfig [⟨3600, hourly [1, 1, 1, 15]⟩, ⟨5400, hourly [1, 1, 1, 15]⟩]
        = .error periodError
    ∧ ∀ (f : List (Nat × Code) → List (Nat × Code)),
        processBatch defaultConfig
            (([⟨3600, hourly [1, 1, 1, 15]⟩, ⟨5400, hourly [1, 1, 1, 15]⟩] : List InputSeries).map
              fun s => (⟨s.period, f s.data⟩ : InputSeries))
          = .error periodError :=
  c8_inconsistent_periods_error defaultConfig ⟨3600, hourly [1, 1, 1, 15]⟩
    [⟨5400, hourly [1, 1, 1, 15]⟩]
    (fun h => by simpa using h ⟨5400, hourly [1, 1, 1, 15]⟩ (by simp))

/-- Claim C9: the wet bias influences only the wet/dry classification, not
the tally weights: for any series and any two bias values under both of which
the point classifies dry, the emitted dry code is identical — in particular
the bias does not multiply the cloud-equivalent contributions folded from wet
codes into dry buckets. -/
theorem c9_wet_bias_only_classification :
    ∀ (cfg : Config) (b₁ b₂ : Nat) (series : List (Nat × Code)),
      isWetPoint { cfg with wetBias := b₁ } (weightedCanon cfg series) = false →
      isWetPoint { cfg with wetBias := b₂ } (weightedCanon cfg series) = false →
      modalCode { cfg with wetBias := b₁ } series
        = modalCode { cfg with wetBias := b₂ } series := by
  intro cfg b₁ b₂ series h₁ h₂
  show modalFromWeighted { cfg with wetBias := b₁ } (weightedCanon cfg series)
      = modalFromWeighted { cfg with wetBias := b₂ } (weightedCanon cfg series)
  unfold modalFromWeighted
  rw [if_neg (by simp [h₁]), if_neg (by simp [h₂])]
  rfl

/-- Witness for claim C9: the dry-classified series `[7, 7, 7, 1, 3, 10, 10]`
gets the same summary code under wet bias 1 and wet bias 2. -/
theorem c9_wet_bias_only_classification_witness :
    modalCode { defaultConfig with wetBias := 1 } (hourly [7, 7, 7, 1, 3, 10, 10])
      = modalCode { defaultConfig with wetBias := 2 } (hourly [7, 7, 7, 1, 3, 10, 10]) :=
  c9_wet_bias_only_classification defaultConfig 1 2 (hourly [7, 7, 7, 1, 3, 10, 10])
    (by decide) (by decide)

/-- Claim C10: the emitted code can be absent from the input entirely — the
cloud-equivalent bucket 8, fed only by folding, wins the dry-side selection
for `[1, 3, 4, 5, 7, 11]` (default configuration) and for
`[1, 1, 1, 7, 12, 12]` (with intensity grouping), although 8 occurs in
neither input. -/
theorem c10_emitted_code_not_in_input :
    modalCode defaultConfig (hourly [1, 3, 4, 5, 7, 11]) = some 8
    ∧ (8 : Code) ∉ [1, 3, 4, 5, 7, 11]
    ∧ modalCode intensityConfig (hourly [1, 1, 1, 7, 12, 12]) = some 8
    ∧ (8 : Code) ∉ [1, 1, 1, 7, 12, 12] := by
  refine ⟨by decide, by decide, by decide, by decide⟩

end ModalGroupings
